import Mathlib

/-!
Shallow embedding of the timber logging package (timber.go) and proofs
about its dispatch actor, fan-out resolver, call-site name parser and
shutdown protocol.

Modelling conventions:
  - Go `Level` is `int`; we embed it as `Int`.  The level constants
    NONE..CRITICAL are 0..8 as in the Go `iota` block.
  - A `LogWriter` destination is identified by a natural number; the
    observable effect of running a piece of the actor is a list of
    `Event`s: writes to destinations, closes of destinations, and
    acknowledgments sent back on `Ret` channels.
  - A Go map `map[string]Level` is embedded as an association list with
    `List.lookup` (exact string equality, as for a Go map).
  - Go strings in the name parser are embedded as `List Char`; Go's
    panicking slice/index operations are embedded as `Option`-returning
    operations (`none` = runtime panic).
  - Channel state is explicit: the buffered record channel is a FIFO
    `List LogRecord` with capacity 300, and the closed `blackHole`
    channel is a `Bool` flag.
-/

set_option maxRecDepth 4000

namespace Timber

/-- Go `type Level int`. -/
abbrev Level := Int

def NONE : Level := 0

def FINEST : Level := 1

def FINE : Level := 2

def DEBUG : Level := 3

def TRACE : Level := 4

def INFO : Level := 5

def WARNING : Level := 6

def ERROR : Level := 7

def CRITICAL : Level := 8

/-- The fields of `LogRecord` used by dispatch (timestamp embedded as a
number, `Extra` omitted: no claim depends on it). -/
structure LogRecord where
  Level : Int
  Timestamp : Nat
  SourceFile : String
  SourceLine : Int
  Message : String
  FuncPath : String
  MethodPath : String
  PackagePath : String
  HostName : String

/-- A registry entry (`ConfigLogger`): destination id, default threshold,
formatter, granular overrides. -/
structure ConfigLogger where
  LogWriter : Nat
  Level : Int
  Formatter : LogRecord → String
  Granulars : List (String × Int)

/-- Observable effects of the actor: a formatted write to a destination,
a destination close, an index acknowledgment on an `Add`'s `Ret` channel,
and the `Ret <- 0` acknowledgment of a `Close`. -/
inductive Event where
  | write (writer : Nat) (msg : String)
  | closeW (writer : Nat)
  | retIndex (idx : Nat)
  | ackClose
deriving DecidableEq

/-- Embedding of `sendToLogger` (timber.go:383-392): deliver iff
`rec.Level >= granLevel || granLevel == 0`; format only when the cached
`formatted` string is empty; returns the write events and the Go bool. -/
def sendToLogger (rec : LogRecord) (granLevel : Level) (formatted : String)
    (cLog : ConfigLogger) : List Event × Bool :=
  if rec.Level ≥ granLevel ∨ granLevel = 0 then
    let f := if formatted = "" then cLog.Formatter rec else formatted
    ([Event.write cLog.LogWriter f], true)
  else ([], false)

/-- Embedding of one iteration of the loop body of `sendToLoggers`
(timber.go:394-418): granular lookup on FuncPath, then MethodPath, then
PackagePath, else the entry default.  In the Go code `formatted` is a
local that is never reassigned (the callee receives it by value), so the
empty string is passed at every call. -/
def sendToLoggerEntry (rec : LogRecord) (cLog : ConfigLogger) : List Event :=
  match cLog.Granulars.lookup rec.FuncPath with
  | some gLevel => (sendToLogger rec gLevel "" cLog).1
  | none =>
    match cLog.Granulars.lookup rec.MethodPath with
    | some gLevel => (sendToLogger rec gLevel "" cLog).1
    | none =>
      match cLog.Granulars.lookup rec.PackagePath with
      | some gLevel => (sendToLogger rec gLevel "" cLog).1
      | none => (sendToLogger rec cLog.Level "" cLog).1

/-- Embedding of `sendToLoggers` (timber.go:394-418): iterate the registry
in index order. -/
def sendToLoggers (loggers : List ConfigLogger) (rec : LogRecord) : List Event :=
  (loggers.map (sendToLoggerEntry rec)).flatten

/-- Specification-side definition of the effective threshold, written
from the spec's resolution order (spec 4.3): function identity, then
method identity, then package identity, then the entry default. -/
def effectiveThreshold (cLog : ConfigLogger) (rec : LogRecord) : Level :=
  match cLog.Granulars.lookup rec.FuncPath with
  | some g => g
  | none =>
    match cLog.Granulars.lookup rec.MethodPath with
    | some g => g
    | none =>
      match cLog.Granulars.lookup rec.PackagePath with
      | some g => g
      | none => cLog.Level

theorem sendToLoggerEntry_eq_sendToLogger (rec : LogRecord) (cLog : ConfigLogger) :
    sendToLoggerEntry rec cLog =
      (sendToLogger rec (effectiveThreshold cLog rec) "" cLog).1 := by
  unfold sendToLoggerEntry effectiveThreshold
  cases cLog.Granulars.lookup rec.FuncPath with
  | some g => rfl
  | none =>
    cases cLog.Granulars.lookup rec.MethodPath with
    | some g => rfl
    | none =>
      cases cLog.Granulars.lookup rec.PackagePath with
      | some g => rfl
      | none => rfl

/-- C1: for every log record and every registry entry, with effective
threshold T resolved for that pair, the record is formatted with the
entry's formatter and delivered to the entry's destination if and only if
the record's level is at least T or T is the zero level NONE; the zero
level is a wildcard that delivers every record. -/
theorem delivery_iff_level_ge_threshold_or_zero (rec : LogRecord) (cLog : ConfigLogger) :
    sendToLoggerEntry rec cLog =
      (if rec.Level ≥ effectiveThreshold cLog rec ∨ effectiveThreshold cLog rec = NONE then
        [Event.write cLog.LogWriter (cLog.Formatter rec)]
      else []) := by
  rw [sendToLoggerEntry_eq_sendToLogger]
  unfold sendToLogger NONE
  split <;> simp

/-- C2: the effective threshold is resolved in the exact priority order
FuncPath, MethodPath, PackagePath, default, stopping at the first
granular hit; when a higher-priority key is present, the lower-priority
keys and the default are never consulted: the entry's behaviour equals
`sendToLogger` run at the matched threshold alone, even when the record
fails that threshold's level test. -/
theorem granular_resolution_priority (rec : LogRecord) (cLog : ConfigLogger) :
    sendToLoggerEntry rec cLog =
      (sendToLogger rec (effectiveThreshold cLog rec) "" cLog).1 ∧
    (∀ g, cLog.Granulars.lookup rec.FuncPath = some g →
      effectiveThreshold cLog rec = g) ∧
    (cLog.Granulars.lookup rec.FuncPath = none →
      ∀ g, cLog.Granulars.lookup rec.MethodPath = some g →
        effectiveThreshold cLog rec = g) ∧
    (cLog.Granulars.lookup rec.FuncPath = none →
      cLog.Granulars.lookup rec.MethodPath = none →
      ∀ g, cLog.Granulars.lookup rec.PackagePath = some g →
        effectiveThreshold cLog rec = g) ∧
    (cLog.Granulars.lookup rec.FuncPath = none →
      cLog.Granulars.lookup rec.MethodPath = none →
      cLog.Granulars.lookup rec.PackagePath = none →
      effectiveThreshold cLog rec = cLog.Level) := by
  refine ⟨sendToLoggerEntry_eq_sendToLogger rec cLog, ?_, ?_, ?_, ?_⟩
  · intro g hg
    unfold effectiveThreshold
    rw [hg]
  · intro h1 g hg
    unfold effectiveThreshold
    rw [h1, hg]
  · intro h1 h2 g hg
    unfold effectiveThreshold
    rw [h1, h2, hg]
  · intro h1 h2 h3
    unfold effectiveThreshold
    rw [h1, h2, h3]

/-- Embedding of `closeAllWriters` (timber.go:420-424): close every
entry's destination, in registry index order. -/
def closeAllWriters (cls : List ConfigLogger) : List Event :=
  cls.map (fun cLog => Event.closeW cLog.LogWriter)

/-- Embedding of the drain loop after the main loop of `asyncLumberJack`
(timber.go:370-379): non-blocking receives empty the buffered record
channel in FIFO order, delivering each record through `sendToLoggers`. -/
def drainRecordChan (loggers : List ConfigLogger) (pending : List LogRecord) : List Event :=
  (pending.map (sendToLoggers loggers)).flatten

/-- Embedding of the tail of `asyncLumberJack` once `actionQuit` has been
processed (timber.go:361-366 and 370-381): drain the record channel, close
all writers, then the deferred `cfg.Ret <- 0` fires as the goroutine
returns. -/
def drainAndClose (loggers : List ConfigLogger) (pending : List LogRecord) : List Event :=
  drainRecordChan loggers pending ++ closeAllWriters loggers ++ [Event.ackClose]

/-- Go `timberAction` (timber.go:311-318). -/
inductive TimberAction where
  | actionAdd
  | actionSet
  | actionModify
  | actionQuit
deriving DecidableEq

/-- Go `timberConfig` (timber.go:320-325); the `Ret` channel is implicit
in the `Event`s the actor emits.  `Index` is a Go `int`, hence `Int`. -/
structure TimberConfig where
  Action : TimberAction
  Index : Int
  Cfg : ConfigLogger

/-- Embedding of the `case cfg := <-t.writerConfigChan` switch in
`asyncLumberJack` (timber.go:351-367).  Returns the new registry, the
events emitted, and whether this was `actionQuit`; `none` models the Go
runtime panic of the unchecked `loggers[cfg.Index]` access in the
`actionSet` branch. -/
def applyConfig (loggers : List ConfigLogger) (cfg : TimberConfig) :
    Option (List ConfigLogger × List Event × Bool) :=
  match cfg.Action with
  | TimberAction.actionAdd =>
      some (loggers ++ [cfg.Cfg], [Event.retIndex loggers.length], false)
  | TimberAction.actionSet =>
      if h : 0 ≤ cfg.Index ∧ cfg.Index.toNat < loggers.length then
        some (loggers.set cfg.Index.toNat cfg.Cfg,
          [Event.closeW (loggers.get ⟨cfg.Index.toNat, h.2⟩).LogWriter], false)
      else none
  | TimberAction.actionModify => some (loggers, [], false)
  | TimberAction.actionQuit => some (loggers, [], true)

/-- A message dequeued by the actor's `select`: a record from
`recordChan` or a control message from `writerConfigChan`. -/
inductive Msg where
  | record (rec : LogRecord)
  | config (cfg : TimberConfig)

/-- Embedding of the main loop of `asyncLumberJack` (timber.go:344-381).
`msgs` is the sequence of messages the `select` dequeues, in order;
`pending` is the content of the buffered record channel at the moment
`actionQuit` is processed (no further record can enter it: the quit
branch closes `blackHole` first).  Result: the events emitted, or `none`
if a control message makes the actor panic. -/
def runLoop (loggers : List ConfigLogger) (msgs : List Msg) (pending : List LogRecord) :
    Option (List Event) :=
  match msgs with
  | [] => some []
  | Msg.record rec :: rest =>
      (runLoop loggers rest pending).map (fun evs => sendToLoggers loggers rec ++ evs)
  | Msg.config cfg :: rest =>
      match applyConfig loggers cfg with
      | none => none
      | some (loggers2, evs, quit) =>
          if quit then some (evs ++ drainAndClose loggers2 pending)
          else (runLoop loggers2 rest pending).map (fun evs2 => evs ++ evs2)

/-- Capacity of the buffered record channel (timber.go:332). -/
def recordChanCapacity : Nat := 300

/-- Outcome of a record submission from the caller's point of view. -/
inductive SubmitOutcome where
  | dropped
  | enqueued
  | blocked
deriving DecidableEq

/-- Embedding of `doPrepareAndSend` (timber.go:470-479).  The `select`
takes the `<-t.blackHole` case as soon as that channel is closed (a
receive on a closed channel is always ready and a ready case is preferred
over `default`); otherwise the `default` branch runs `t.recordChan <- rec`,
an ordinary send on a 300-buffered channel: it enqueues when the buffer
has room and otherwise blocks the caller until the actor frees a slot.
Returns the outcome and the record-channel content after the call. -/
def doPrepareAndSend (blackHoleClosed : Bool) (recordChan : List LogRecord)
    (rec : LogRecord) : SubmitOutcome × List LogRecord :=
  if blackHoleClosed then (SubmitOutcome.dropped, recordChan)
  else if recordChan.length < recordChanCapacity then
    (SubmitOutcome.enqueued, recordChan ++ [rec])
  else (SubmitOutcome.blocked, recordChan)

/-- Embedding of `Timber.Close` (timber.go:441-448): `closeLatch` is a
`sync.Once`, so the quit protocol (send `actionQuit`, wait for the ack,
which triggers drain and writer close) runs only on the first call.
Returns the new latch state and the events the call produces. -/
def timberClose (latchUsed : Bool) (loggers : List ConfigLogger)
    (pending : List LogRecord) : Bool × List Event :=
  if latchUsed then (true, [])
  else (true, drainAndClose loggers pending)

/-- A concrete record whose function, method and package identities all
carry conflicting overrides in the same entry. -/
def recW : LogRecord :=
  { Level := FINEST
    Timestamp := 0
    SourceFile := "main.go"
    SourceLine := 10
    Message := "m"
    FuncPath := "pkg.(T).F"
    MethodPath := "pkg.(T)"
    PackagePath := "pkg"
    HostName := "h" }

def cLogW : ConfigLogger :=
  { LogWriter := 0
    Level := NONE
    Formatter := fun r => r.Message
    Granulars := [("pkg.(T).F", DEBUG), ("pkg.(T)", NONE), ("pkg", NONE)] }

/-- Witness for C2: with conflicting overrides, the function-identity
override DEBUG wins, and the FINEST record is suppressed even though the
method, package and default thresholds would all have delivered it. -/
theorem granular_resolution_priority_witness :
    effectiveThreshold cLogW recW = DEBUG ∧ sendToLoggerEntry recW cLogW = [] := by
  have h := granular_resolution_priority recW cLogW
  refine ⟨h.2.1 DEBUG (by rfl), ?_⟩
  rw [h.1, h.2.1 DEBUG (by rfl)]
  rfl

def q300 : List LogRecord := List.replicate 300 recW

/-- C3 counterexample: with the rejection gate unset and the 300-slot
record channel full, `doPrepareAndSend` blocks the caller on the channel
send; it does not drop the record and return. -/
theorem queue_full_blocks_counterexample :
    (doPrepareAndSend false q300 recW).1 = SubmitOutcome.blocked ∧
    SubmitOutcome.blocked ≠ SubmitOutcome.dropped := by
  constructor
  · unfold doPrepareAndSend q300 recordChanCapacity
    simp
  · intro h
    exact SubmitOutcome.noConfusion h

/-- C3 amended: while the rejection gate is unset, a submission never
drops the record; it enqueues at the tail when the 300-slot channel has
room, and blocks the caller (leaving the channel unchanged) when the
channel is full. -/
theorem submission_never_drops_before_gate (q : List LogRecord) (rec : LogRecord) :
    (doPrepareAndSend false q rec).1 ≠ SubmitOutcome.dropped ∧
    (q.length < recordChanCapacity →
      doPrepareAndSend false q rec = (SubmitOutcome.enqueued, q ++ [rec])) ∧
    (recordChanCapacity ≤ q.length →
      doPrepareAndSend false q rec = (SubmitOutcome.blocked, q)) := by
  refine ⟨?_, ?_, ?_⟩
  · by_cases hlt : q.length < recordChanCapacity
    · simp [doPrepareAndSend, hlt]
    · simp [doPrepareAndSend, hlt]
  · intro h
    simp [doPrepareAndSend, h]
  · intro h
    have hn : ¬ q.length < recordChanCapacity := by omega
    simp [doPrepareAndSend, hn]

/-- Witness for the amended C3 at a concrete full channel. -/
theorem submission_never_drops_before_gate_witness :
    doPrepareAndSend false q300 recW = (SubmitOutcome.blocked, q300) :=
  (submission_never_drops_before_gate q300 recW).2.2
    (by simp [q300, recordChanCapacity])

/-- C4: once the rejection gate (the closed `blackHole` channel) is set,
every submission returns immediately with the record dropped and the
record channel unchanged, so a record submitted after the gate flips
never enters the queue and hence is never delivered. -/
theorem post_gate_submission_rejected (q : List LogRecord) (rec : LogRecord) :
    doPrepareAndSend true q rec = (SubmitOutcome.dropped, q) ∧
    (rec ∉ q → rec ∉ (doPrepareAndSend true q rec).2) := by
  refine ⟨rfl, ?_⟩
  intro h
  simpa [doPrepareAndSend] using h

/-- Witness for C4 at an empty channel. -/
theorem post_gate_submission_rejected_witness :
    doPrepareAndSend true [] recW = (SubmitOutcome.dropped, []) ∧
    recW ∉ (doPrepareAndSend true [] recW).2 :=
  ⟨(post_gate_submission_rejected [] recW).1,
    (post_gate_submission_rejected [] recW).2 (by simp)⟩

def quitConfig : TimberConfig :=
  { Action := TimberAction.actionQuit, Index := 0, Cfg := cLogW }

/-- C5: when the quit control message is processed after any run of
record messages, the actor delivers the records it dequeues and then,
in order: every record still pending in the channel through the normal
fan-out against the final registry snapshot in FIFO order, then one
close per registry entry in registry index order, and the close
acknowledgment strictly last. -/
theorem quit_drains_then_closes_then_acks (loggers : List ConfigLogger)
    (recs pending : List LogRecord) :
    runLoop loggers (recs.map Msg.record ++ [Msg.config quitConfig]) pending =
      some ((recs.map (sendToLoggers loggers)).flatten ++
        ((pending.map (sendToLoggers loggers)).flatten ++
          (loggers.map (fun cLog => Event.closeW cLog.LogWriter) ++ [Event.ackClose]))) := by
  induction recs with
  | nil =>
      simp [runLoop, applyConfig, quitConfig, drainAndClose, drainRecordChan, closeAllWriters]
  | cons r rs ih =>
      simp only [List.map_cons, List.cons_append, runLoop, List.append_eq]
      rw [ih]
      simp [List.append_assoc]

/-- C6: the close latch makes `Close` idempotent: the first call runs the
full drain-and-close protocol, and a second (and any later) call returns
with no events at all: no drain is re-run and no destination close event
is emitted again. -/
theorem close_idempotent (loggers loggers2 : List ConfigLogger)
    (pending pending2 : List LogRecord) :
    (timberClose false loggers pending).2 = drainAndClose loggers pending ∧
    timberClose (timberClose false loggers pending).1 loggers2 pending2 = (true, []) := by
  exact ⟨rfl, rfl⟩

def retIndices (evs : List Event) : List Nat :=
  evs.filterMap (fun e =>
    match e with
    | Event.retIndex n => some n
    | _ => none)

def isConfigMsg : Msg → Bool
  | Msg.record _ => false
  | Msg.config _ => true

lemma retIndices_append (a b : List Event) :
    retIndices (a ++ b) = retIndices a ++ retIndices b := by
  unfold retIndices
  exact List.filterMap_append a b _

lemma retIndices_sendToLoggerEntry (rec : LogRecord) (cLog : ConfigLogger) :
    retIndices (sendToLoggerEntry rec cLog) = [] := by
  rw [sendToLoggerEntry_eq_sendToLogger]
  unfold sendToLogger
  split
  · rfl
  · rfl

lemma retIndices_sendToLoggers (loggers : List ConfigLogger) (rec : LogRecord) :
    retIndices (sendToLoggers loggers rec) = [] := by
  induction loggers with
  | nil => rfl
  | cons c cs ih =>
      unfold sendToLoggers at *
      simp only [List.map_cons, List.flatten_cons, retIndices_append,
        retIndices_sendToLoggerEntry, List.nil_append, ih]

/-- C7: in any run consisting of `Add` control messages and record
traffic, the actor answers the successive `Add`s with the successive
registry lengths: starting from a registry of length n, the k-th `Add`
is acknowledged with index n + k - 1, so from an empty registry the
first `Add` returns 0, the second 1, and so on, regardless of
interleaved records. -/
theorem add_returns_sequential_indices (msgs : List Msg) (loggers : List ConfigLogger)
    (pending : List LogRecord)
    (hadd : ∀ cfg, Msg.config cfg ∈ msgs → cfg.Action = TimberAction.actionAdd) :
    ∃ evs, runLoop loggers msgs pending = some evs ∧
      retIndices evs = List.range' loggers.length (msgs.countP isConfigMsg) := by
  induction msgs generalizing loggers with
  | nil => exact ⟨[], rfl, by simp [retIndices]⟩
  | cons m rest ih =>
      cases m with
      | record r =>
          obtain ⟨evs, hrun, hret⟩ :=
            ih loggers (fun cfg hc => hadd cfg (List.mem_cons_of_mem _ hc))
          refine ⟨sendToLoggers loggers r ++ evs, ?_, ?_⟩
          · simp [runLoop, hrun]
          · rw [retIndices_append, retIndices_sendToLoggers, List.nil_append, hret]
            simp [List.countP_cons, isConfigMsg]
      | config cfg =>
          have hact : cfg.Action = TimberAction.actionAdd :=
            hadd cfg (List.mem_cons_self _ _)
          obtain ⟨evs, hrun, hret⟩ :=
            ih (loggers ++ [cfg.Cfg]) (fun c hc => hadd c (List.mem_cons_of_mem _ hc))
          refine ⟨Event.retIndex loggers.length :: evs, ?_, ?_⟩
          · simp [runLoop, applyConfig, hact, hrun]
          · have hcount : (Msg.config cfg :: rest).countP isConfigMsg =
                rest.countP isConfigMsg + 1 := by
              simp [List.countP_cons, isConfigMsg]
            rw [hcount, List.range'_succ]
            have : retIndices (Event.retIndex loggers.length :: evs) =
                loggers.length :: retIndices evs := rfl
            rw [this, hret]
            simp

def addConfig : TimberConfig :=
  { Action := TimberAction.actionAdd, Index := 0, Cfg := cLogW }

def msgsW : List Msg :=
  [Msg.config addConfig, Msg.record recW, Msg.config addConfig]

/-- Witness for C7: from an empty registry, an add, a record, and a
second add produce acknowledgment indices 0 then 1. -/
theorem add_returns_sequential_indices_witness :
    ∃ evs, runLoop [] msgsW [] = some evs ∧ retIndices evs = [0, 1] := by
  have h := add_returns_sequential_indices msgsW [] []
    (by
      intro cfg hc
      simp only [msgsW, List.mem_cons, List.not_mem_nil, or_false] at hc
      rcases hc with h1 | h1 | h1
      · cases h1; rfl
      · cases h1
      · cases h1; rfl)
  simpa [msgsW, isConfigMsg, List.countP_cons, List.range'] using h

/-- C10: the `Replace` control operation performs no bounds check: for
every index outside the interval from 0 to the registry length the
actor's apply step hits an out-of-range list access while closing the
old entry's destination (modelled as `none`), crashing the actor loop,
while every in-range index (exactly those `AddLogger` has returned)
succeeds. -/
theorem set_logger_unchecked_index (loggers : List ConfigLogger) (i : Int)
    (c : ConfigLogger) :
    (¬ (0 ≤ i ∧ i < (loggers.length : Int)) →
      applyConfig loggers { Action := TimberAction.actionSet, Index := i, Cfg := c } = none ∧
      runLoop loggers
        [Msg.config { Action := TimberAction.actionSet, Index := i, Cfg := c }] [] = none) ∧
    ((0 ≤ i ∧ i < (loggers.length : Int)) →
      (applyConfig loggers
        { Action := TimberAction.actionSet, Index := i, Cfg := c }).isSome) := by
  constructor
  · intro h
    have hcond : ¬ (0 ≤ i ∧ i.toNat < loggers.length) := by omega
    constructor
    · simp only [applyConfig]
      rw [dif_neg hcond]
    · simp only [runLoop, applyConfig]
      rw [dif_neg hcond]
  · intro h
    have hcond : 0 ≤ i ∧ i.toNat < loggers.length := by omega
    simp only [applyConfig]
    rw [dif_pos hcond]
    rfl

/-- Witness for C10: replacing index 0 on an empty registry crashes the
actor, and after one add, index 0 is safe. -/
theorem set_logger_unchecked_index_witness :
    applyConfig [] { Action := TimberAction.actionSet, Index := 0, Cfg := cLogW } = none ∧
    (applyConfig [cLogW]
      { Action := TimberAction.actionSet, Index := 0, Cfg := cLogW }).isSome :=
  ⟨((set_logger_unchecked_index [] 0 cLogW).1 (by simp)).1,
    (set_logger_unchecked_index [cLogW] 0 cLogW).2 (by simp)⟩

/-- Embedding of Go `strings.LastIndex(s, ".")`: index of the last dot,
or -1 when there is none.  Go strings are embedded as `List Char`. -/
def lastIndexDot : List Char → Int
  | [] => -1
  | c :: rest =>
      if 0 ≤ lastIndexDot rest then lastIndexDot rest + 1
      else if c = '.' then 0 else -1

/-- Go slice expression `s[:i]`: panics (`none`) when `i` is negative or
exceeds the length. -/
def goSliceTo (s : List Char) (i : Int) : Option (List Char) :=
  if 0 ≤ i ∧ i ≤ (s.length : Int) then some (s.take i.toNat) else none

/-- Go index expression `s[i]`: panics (`none`) when `i` is out of
range. -/
def goIndex (s : List Char) (i : Int) : Option Char :=
  if 0 ≤ i then s[i.toNat]? else none

/-- Embedding of `parseFuncName` (timber.go:484-497), with each Go
slice/index operation explicit so that `none` marks exactly the inputs
on which the Go function panics. -/
def parseFuncName (funcName : List Char) : Option (List Char × List Char) :=
  match goSliceTo funcName (lastIndexDot funcName) with
  | none => none
  | some packagePath =>
    match goIndex packagePath ((packagePath.length : Int) - 1) with
    | none => none
    | some ch =>
      if ch = ')' then
        match goSliceTo packagePath (lastIndexDot packagePath) with
        | none => none
        | some packagePath2 => some (packagePath2, packagePath)
      else some (packagePath, [])

lemma lastIndexDot_lt_length (s : List Char) : lastIndexDot s < (s.length : Int) := by
  induction s with
  | nil => simp [lastIndexDot]
  | cons c rest ih =>
      simp only [lastIndexDot, List.length_cons]
      by_cases h : 0 ≤ lastIndexDot rest
      · rw [if_pos h]
        push_cast
        omega
      · rw [if_neg h]
        by_cases hc : c = '.'
        · rw [if_pos hc]
          push_cast
          omega
        · rw [if_neg hc]
          push_cast
          omega

lemma goIndex_last (s : List Char) (h : s ≠ []) :
    goIndex s ((s.length : Int) - 1) = s.getLast? := by
  have hpos : 0 < s.length := List.length_pos.mpr h
  unfold goIndex
  rw [if_pos (by omega : (0 : Int) ≤ (s.length : Int) - 1)]
  have h2 : ((s.length : Int) - 1).toNat = s.length - 1 := by omega
  rw [h2, List.getLast?_eq_getElem? s]

lemma parseFuncName_eval (s : List Char) (h1 : 1 ≤ lastIndexDot s) :
    parseFuncName s =
      (if (s.take (lastIndexDot s).toNat).getLast? = some ')' then
        (if 0 ≤ lastIndexDot (s.take (lastIndexDot s).toNat) then
          some ((s.take (lastIndexDot s).toNat).take
              (lastIndexDot (s.take (lastIndexDot s).toNat)).toNat,
            s.take (lastIndexDot s).toNat)
        else none)
      else some (s.take (lastIndexDot s).toNat, [])) := by
  have hlt := lastIndexDot_lt_length s
  set pkg := s.take (lastIndexDot s).toNat with hpkg
  have hslice : goSliceTo s (lastIndexDot s) = some pkg := by
    unfold goSliceTo
    rw [if_pos ⟨by omega, by omega⟩]
  have hlen : pkg.length = (lastIndexDot s).toNat := by
    rw [hpkg, List.length_take]
    omega
  have hne : pkg ≠ [] := by
    have hp : 0 < pkg.length := by omega
    exact List.length_pos.mp hp
  obtain ⟨ch, hch⟩ := Option.isSome_iff_exists.mp (List.getLast?_isSome.mpr hne)
  have hidx : goIndex pkg ((pkg.length : Int) - 1) = some ch := by
    rw [goIndex_last pkg hne, hch]
  unfold parseFuncName
  rw [hslice, hch]
  simp only [hidx]
  by_cases hcp : ch = ')'
  · subst hcp
    rw [if_pos rfl, if_pos rfl]
    have hlt2 := lastIndexDot_lt_length pkg
    by_cases h2 : 0 ≤ lastIndexDot pkg
    · have hslice2 : goSliceTo pkg (lastIndexDot pkg) =
          some (pkg.take (lastIndexDot pkg).toNat) := by
        unfold goSliceTo
        rw [if_pos ⟨h2, by omega⟩]
      rw [hslice2, if_pos h2]
    · have hslice2 : goSliceTo pkg (lastIndexDot pkg) = none := by
        unfold goSliceTo
        rw [if_neg (fun hcontra => h2 hcontra.1)]
      rw [hslice2, if_neg h2]
  · rw [if_neg hcp, if_neg (fun hcontra => hcp (Option.some.inj hcontra))]

/-- C8: on a well-formed resolved function name (last dot at position at
least 1, and, in the method branch, an inner dot present),
`parseFuncName` returns packagePath equal to the substring before the
name's last dot; and when that substring's last character is a closing
parenthesis it additionally returns methodPath equal to that substring
and recomputes packagePath as the substring before methodPath's own last
dot; otherwise methodPath is the empty string. -/
theorem parseFuncName_wellformed (s : List Char) (h1 : 1 ≤ lastIndexDot s) :
    ((s.take (lastIndexDot s).toNat).getLast? ≠ some ')' →
      parseFuncName s = some (s.take (lastIndexDot s).toNat, [])) ∧
    ((s.take (lastIndexDot s).toNat).getLast? = some ')' →
      0 ≤ lastIndexDot (s.take (lastIndexDot s).toNat) →
      parseFuncName s =
        some ((s.take (lastIndexDot s).toNat).take
            (lastIndexDot (s.take (lastIndexDot s).toNat)).toNat,
          s.take (lastIndexDot s).toNat)) := by
  rw [parseFuncName_eval s h1]
  constructor
  · intro hne
    rw [if_neg hne]
  · intro hp h2
    rw [if_pos hp, if_pos h2]

/-- Witness for C8: the method-form name a/b.(T).Func parses to package
path a/b and method path a/b.(T), and the plain form a/b.Func parses to
package path a/b with empty method path. -/
theorem parseFuncName_wellformed_witness :
    parseFuncName "a/b.(T).Func".toList =
      some ("a/b".toList, "a/b.(T)".toList) ∧
    parseFuncName "a/b.Func".toList = some ("a/b".toList, []) := by
  constructor
  · have h := (parseFuncName_wellformed "a/b.(T).Func".toList (by decide)).2
      (by decide) (by decide)
    rw [h]
    decide
  · have h := (parseFuncName_wellformed "a/b.Func".toList (by decide)).1 (by decide)
    rw [h]
    decide

/-- C9: `parseFuncName` evaluates without an out-of-range string index
or slice bound exactly when the last dot of the input sits at position
at least 1 and, whenever the substring before it ends in a closing
parenthesis, that substring contains a dot of its own; in particular an
input without any dot, an input whose only dot is at position 0, and a
method-branch input whose prefix has no inner dot all fault. -/
theorem parseFuncName_safe_iff (s : List Char) :
    (parseFuncName s).isSome ↔
      (1 ≤ lastIndexDot s ∧
        ((s.take (lastIndexDot s).toNat).getLast? = some ')' →
          0 ≤ lastIndexDot (s.take (lastIndexDot s).toNat))) := by
  by_cases h1 : 1 ≤ lastIndexDot s
  · rw [parseFuncName_eval s h1]
    by_cases hp : (s.take (lastIndexDot s).toNat).getLast? = some ')'
    · rw [if_pos hp]
      by_cases h2 : 0 ≤ lastIndexDot (s.take (lastIndexDot s).toNat)
      · rw [if_pos h2]
        simp [h1, h2]
      · rw [if_neg h2]
        simp [hp, h2]
    · rw [if_neg hp]
      simp [h1, hp]
  · have hlt := lastIndexDot_lt_length s
    have hnone : parseFuncName s = none := by
      unfold parseFuncName
      by_cases h0 : 0 ≤ lastIndexDot s
      · have hz : lastIndexDot s = 0 := by omega
        have hslice : goSliceTo s (lastIndexDot s) = some [] := by
          unfold goSliceTo
          rw [if_pos ⟨h0, by omega⟩, hz]
          rfl
        rw [hslice]
        have hidx : goIndex ([] : List Char) ((List.length ([] : List Char) : Int) - 1) =
            none := by
          unfold goIndex
          rw [if_neg (by norm_num)]
        simp only [hidx]
      · have hslice : goSliceTo s (lastIndexDot s) = none := by
          unfold goSliceTo
          rw [if_neg (fun hcontra => h0 hcontra.1)]
        rw [hslice]
    rw [hnone]
    simp [h1]

end Timber
